import Mathlib

/-!
Verification of the oscillator-strength / absorption-spectrum pipeline of
nano-qmflows, shallowly embedded in Lean 4.

Numeric values that the Python code holds in IEEE doubles are modelled as
exact rationals (`ℚ`).  Quantities produced by external collaborators
(the libint integral kernel, the Gaussian/Lorentzian convolution values,
the reshape of a raw tensor, the HDF5 float32 dtype conversion) enter the
embedding as explicit parameters, mirroring the interfaces the source code
consumes.
-/

namespace NanoQMFlows

/-- The `Oscillator` named tuple of `workflow_AbsortionSpectrum.py`:
`(initialS, finalS, deltaE, fij, components)`. -/
structure OscR where
  initialS : ℕ
  finalS : ℕ
  deltaE : ℚ
  fij : ℚ
  components : List ℚ
  deriving DecidableEq, Inhabited

/-- Dot product of two coefficient vectors of length `n`
(`np.dot(u, v)` on 1-d arrays). -/
def vecDot (n : ℕ) (u v : ℕ → ℚ) : ℚ := ∑ k in Finset.range n, u k * v k

/-- Matrix-vector product (`np.dot(mtx, v)`), square matrix of size `n`. -/
def matVec (n : ℕ) (mtx : ℕ → ℕ → ℚ) (v : ℕ → ℚ) : ℕ → ℚ :=
  fun r => ∑ c in Finset.range n, mtx r c * v c

/-- Embedding of `oscillator_strength` of `workflow_AbsortionSpectrum.py`:
components are `np.dot(css_i, np.dot(mtx, css_j))` for each matrix in
`mtx_integrals_spher`, and `fij = (2 / 3) * energy * sum(x ** 2 for x in components)`. -/
def oscillator_strength (n : ℕ) (css_i css_j : ℕ → ℚ) (energy : ℚ)
    (mtx_integrals_spher : List (ℕ → ℕ → ℚ)) : ℚ × List ℚ :=
  let components := mtx_integrals_spher.map (fun mtx => vecDot n css_i (matVec n mtx css_j))
  let sum_integrals := (components.map (fun x => x ^ 2)).sum
  ((2 / 3) * energy * sum_integrals, components)

/-- Embedding of `compute_oscillator_strength` of `workflow_AbsortionSpectrum.py`:
for one initial state and its list `fs` of final states it extracts the
columns `coeffs[:, initialS]`, `coeffs[:, finalS]`, the energies
`es[initialS]`, `es[finalS]`, forms `deltaE = energy_j - energy_i` and
builds one `Oscillator` record per final state. -/
def compute_oscillator_strength (n : ℕ) (es : ℕ → ℚ) (coeffs : ℕ → ℕ → ℚ)
    (mtx_integrals_spher : List (ℕ → ℕ → ℚ)) (initialS : ℕ) (fs : List ℕ) : List OscR :=
  let css_i : ℕ → ℚ := fun r => coeffs r initialS
  let energy_i := es initialS
  fs.map (fun finalS =>
    let css_j : ℕ → ℚ := fun r => coeffs r finalS
    let deltaE := es finalS - energy_i
    let p := oscillator_strength n css_i css_j deltaE mtx_integrals_spher
    { initialS := initialS, finalS := finalS, deltaE := deltaE,
      fij := p.1, components := p.2 })

/-- Fuel-driven worker for `pyZip`.  One step strips the head of every
list; iteration stops as soon as one of the lists is exhausted, exactly
like Python's `zip`. -/
def pyZipAux {α : Type} [Inhabited α] (fuel : ℕ) (xss : List (List α)) : List (List α) :=
  if h : fuel = 0 then []
  else if xss.any List.isEmpty then []
  else (xss.map List.headI) :: pyZipAux (fuel - 1) (xss.map List.tail)
termination_by fuel
decreasing_by omega

/-- Python's `zip(*xss)` on a list of lists: truncating transposition.
The fuel `x.length` bounds the number of produced rows, which never
exceeds the length of the first list. -/
def pyZip {α : Type} [Inhabited α] (xss : List (List α)) : List (List α) :=
  match xss with
  | [] => []
  | x :: rest => pyZipAux x.length (x :: rest)

/-- The inner closure `compute_cross_section` of `compute_cross_section_grid`
in `workflow_AbsortionSpectrum.py`:

`cte * sum(sum(sum(osc.fij * fun_convolution(energy, osc.deltaE, broadening)
for osc in ws) / len(ws) for ws in zip(*arr)) for arr in zip(*oscillators))`.

`oscillators` is indexed frame-major: per sampled frame, per
initial-state group, per final state.  `fun_convolution` is the selected
broadening kernel and `cte` stands for the positive physical prefactor
`2 * pi ** 2 / c` together with the a.u.-to-cm^2 conversion, both of which
are irrational constants multiplying the whole grid value. -/
def compute_cross_section (fun_convolution : ℚ → ℚ → ℚ → ℚ) (cte : ℚ)
    (oscillators : List (List (List OscR))) (broadening : ℚ) (energy : ℚ) : ℚ :=
  cte * ((pyZip oscillators).map (fun arr =>
    ((pyZip arr).map (fun ws =>
      ((ws.map (fun osc => osc.fij * fun_convolution energy osc.deltaE broadening)).sum
        / (ws.length : ℚ)))).sum)).sum

/-- The dictionary `convolution_functions = {'gaussian': ..., 'lorentzian': ...}`
of `compute_cross_section_grid`, with the two kernel doubles passed in as
parameters; `none` models the `KeyError` raised on an unknown name. -/
def convolution_functions (gaussian lorentzian : ℚ → ℚ → ℚ → ℚ) :
    String → Option (ℚ → ℚ → ℚ → ℚ) :=
  fun name =>
    if name = "gaussian" then some gaussian
    else if name = "lorentzian" then some lorentzian
    else none

/-- Embedding of `compute_cross_section_grid` of `workflow_AbsortionSpectrum.py`: look the
convolution function up by name (a `KeyError` escapes for unknown names,
modelled as `Except.error`), then evaluate the vectorized cross section on
every grid energy. -/
def compute_cross_section_grid (gaussian lorentzian : ℚ → ℚ → ℚ → ℚ) (cte : ℚ)
    (oscillators : List (List (List OscR))) (convolution : String)
    (energies : List ℚ) (broadening : ℚ) : Except String (List ℚ) :=
  match convolution_functions gaussian lorentzian convolution with
  | none => Except.error ("KeyError: " ++ convolution)
  | some f => Except.ok (energies.map (compute_cross_section f cte oscillators broadening))

/-- Rectangular frame-major oscillator data: `F` sampled frames, `G`
transition groups (initial states), `M` final states per group, with the
energy gap `dE f j k` and oscillator strength `fv f j k` of each record. -/
def mkOscillators (F G M : ℕ) (dE fv : ℕ → ℕ → ℕ → ℚ) : List (List (List OscR)) :=
  (List.range F).map (fun f => (List.range G).map (fun j => (List.range M).map (fun k =>
    { initialS := 0, finalS := 0, deltaE := dE f j k, fij := fv f j k, components := [] })))

/-- The aggregation exactly as claim C1 words it: outer sum over the `G`
transition groups, middle arithmetic mean over the `M` final states of the
group (the group's accumulated value divided by the number of final states
in that group), inner sum over the `F` sampled frames. -/
def cross_section_claimC1 (fun_convolution : ℚ → ℚ → ℚ → ℚ) (cte : ℚ) (F G M : ℕ)
    (dE fv : ℕ → ℕ → ℕ → ℚ) (broadening energy : ℚ) : ℚ :=
  cte * ((List.range G).map (fun j =>
    (((List.range M).map (fun k =>
      ((List.range F).map (fun f =>
        fv f j k * fun_convolution energy (dE f j k) broadening)).sum)).sum
      / (M : ℚ)))).sum

/-- The aggregation the code actually performs, written index-wise: outer
sum over groups, middle sum over final states, and the per-final-state
accumulation over sampled frames divided by the number of sampled frames
(an arithmetic mean over frames, not over final states). -/
def cross_section_frame_mean (fun_convolution : ℚ → ℚ → ℚ → ℚ) (cte : ℚ) (F G M : ℕ)
    (dE fv : ℕ → ℕ → ℕ → ℚ) (broadening energy : ℚ) : ℚ :=
  cte * ((List.range G).map (fun j =>
    ((List.range M).map (fun k =>
      ((List.range F).map (fun f =>
        fv f j k * fun_convolution energy (dE f j k) broadening)).sum / (F : ℚ))).sum)).sum

lemma List_getD_map_range {β : Type} (h : ℕ → β) {G j : ℕ} (hj : j < G) (d : β) :
    ((List.range G).map h).getD j d = h j := by
  rw [List.getD_eq_getElem?_getD]
  simp [List.getElem?_map, List.getElem?_range hj]

lemma pyZipAux_uniform {α : Type} [Inhabited α] (n : ℕ) :
    ∀ (fuel : ℕ) (xss : List (List α)), xss ≠ [] → (∀ xs ∈ xss, xs.length = n) →
      n ≤ fuel →
      pyZipAux fuel xss
        = (List.range n).map (fun j => xss.map (fun xs => xs.getD j default)) := by
  induction n with
  | zero =>
    intro fuel xss hne hlen _
    have hemp : xss.any List.isEmpty = true := by
      match xss, hne with
      | x :: rest, _ =>
        have hx : x.length = 0 := hlen x (by simp)
        simp [List.any_cons, List.isEmpty_iff, List.length_eq_zero.mp hx]
    rw [pyZipAux]
    simp [hemp]
  | succ m ih =>
    intro fuel xss hne hlen hfuel
    obtain ⟨fu, rfl⟩ : ∃ fu, fuel = fu + 1 := ⟨fuel - 1, by omega⟩
    have hnotemp : ¬xss.any List.isEmpty = true := by
      intro hcon
      obtain ⟨xs, hxs, hempt⟩ := List.any_eq_true.mp hcon
      have hx := hlen xs hxs
      rw [List.isEmpty_iff.mp hempt] at hx
      simp at hx
    have hne' : xss.map List.tail ≠ [] := by
      simpa using hne
    have htail : ∀ ys ∈ xss.map List.tail, ys.length = m := by
      intro ys hys
      obtain ⟨xs, hxs, rfl⟩ := List.mem_map.mp hys
      have := hlen xs hxs
      simp [List.length_tail, this]
    rw [pyZipAux]
    simp only [Nat.add_one_ne_zero, dite_false, hnotemp, if_false, Nat.add_sub_cancel]
    rw [ih fu (xss.map List.tail) hne' htail (by omega)]
    rw [List.range_succ_eq_map]
    simp only [List.map_cons, List.map_map]
    have hhead : xss.map List.headI = xss.map (fun xs => xs.getD 0 default) := by
      refine List.map_congr_left ?_
      intro xs hxs
      have hx := hlen xs hxs
      match xs, hx with
      | a :: t, _ => rfl
    have htails : ∀ j, xss.map (fun xs => xs.tail.getD j default)
        = xss.map (fun xs => xs.getD (j + 1) default) := by
      intro j
      refine List.map_congr_left ?_
      intro xs hxs
      have hx := hlen xs hxs
      match xs, hx with
      | a :: t, _ => rfl
    rw [hhead]
    refine congrArg₂ List.cons rfl ?_
    refine List.map_congr_left ?_
    intro j _
    simp [htails j]

lemma pyZip_uniform {α : Type} [Inhabited α] (n : ℕ) (xss : List (List α))
    (hne : xss ≠ []) (hlen : ∀ xs ∈ xss, xs.length = n) :
    pyZip xss = (List.range n).map (fun j => xss.map (fun xs => xs.getD j default)) := by
  match xss, hne with
  | x :: rest, _ =>
    have hx : x.length = n := hlen x (by simp)
    show pyZipAux x.length (x :: rest) = _
    rw [hx]
    exact pyZipAux_uniform n n (x :: rest) (by simp) hlen le_rfl

/-- The code's triple aggregation on rectangular frame-major data equals
the group-sum / final-state-sum / frame-mean formula.  Shared helper for
the C1 theorem and counterexample. -/
lemma compute_cross_section_mkOscillators (fconv : ℚ → ℚ → ℚ → ℚ) (cte : ℚ) (F G M : ℕ)
    (dE fv : ℕ → ℕ → ℕ → ℚ) (broadening energy : ℚ) :
    compute_cross_section fconv cte (mkOscillators F G M dE fv) broadening energy
      = cross_section_frame_mean fconv cte F G M dE fv broadening energy := by
  rcases Nat.eq_zero_or_pos F with hF | hF
  · subst hF
    simp [mkOscillators, compute_cross_section, pyZip, cross_section_frame_mean]
  · have hF0 : F ≠ 0 := by omega
    unfold compute_cross_section cross_section_frame_mean mkOscillators
    congr 1
    congr 1
    have hlenG : ∀ xs ∈ (List.range F).map (fun f => (List.range G).map (fun j =>
        (List.range M).map (fun k => (⟨0, 0, dE f j k, fv f j k, []⟩ : OscR)))),
        xs.length = G := by
      intro xs hxs
      obtain ⟨f, -, rfl⟩ := List.mem_map.mp hxs
      simp
    rw [pyZip_uniform G _ (by simp [List.map_eq_nil_iff, List.range_eq_nil, hF0]) hlenG]
    rw [List.map_map]
    refine List.map_congr_left ?_
    intro j hj
    have hjG : j < G := List.mem_range.mp hj
    simp only [Function.comp_apply]
    have harr : ((List.range F).map (fun f => (List.range G).map (fun j' =>
        (List.range M).map (fun k => (⟨0, 0, dE f j' k, fv f j' k, []⟩ : OscR))))).map
          (fun xs => xs.getD j default)
        = (List.range F).map (fun f =>
            (List.range M).map (fun k => (⟨0, 0, dE f j k, fv f j k, []⟩ : OscR))) := by
      rw [List.map_map]
      refine List.map_congr_left ?_
      intro f _
      simp only [Function.comp_apply]
      exact List_getD_map_range _ hjG _
    rw [harr]
    have hlenM : ∀ xs ∈ (List.range F).map (fun f =>
        (List.range M).map (fun k => (⟨0, 0, dE f j k, fv f j k, []⟩ : OscR))),
        xs.length = M := by
      intro xs hxs
      obtain ⟨f, -, rfl⟩ := List.mem_map.mp hxs
      simp
    rw [pyZip_uniform M _ (by simp [List.map_eq_nil_iff, List.range_eq_nil, hF0]) hlenM]
    rw [List.map_map]
    congr 1
    refine List.map_congr_left ?_
    intro k hk
    have hkM : k < M := List.mem_range.mp hk
    simp only [Function.comp_apply]
    have hws : ((List.range F).map (fun f =>
        (List.range M).map (fun k' => (⟨0, 0, dE f j k', fv f j k', []⟩ : OscR)))).map
          (fun xs => xs.getD k default)
        = (List.range F).map (fun f => (⟨0, 0, dE f j k, fv f j k, []⟩ : OscR)) := by
      rw [List.map_map]
      refine List.map_congr_left ?_
      intro f _
      simp only [Function.comp_apply]
      exact List_getD_map_range _ hkM _
    rw [hws, List.map_map]
    simp [Function.comp_def]

/-- C1 (amended): for rectangular frame-major oscillator data the code's
triple aggregation `zip`/`zip`/`len` equals: outer sum over transition
groups, middle sum over the final states of the group, inner sum over the
sampled frames of `f · kernel(x, dE, delta)` divided by the number of
sampled frames (arithmetic mean over frames, not over final states). -/
theorem C1_frame_mean_aggregation (fconv : ℚ → ℚ → ℚ → ℚ) (cte : ℚ) (F G M : ℕ)
    (dE fv : ℕ → ℕ → ℕ → ℚ) (broadening energy : ℚ) :
    compute_cross_section fconv cte (mkOscillators F G M dE fv) broadening energy
      = cross_section_frame_mean fconv cte F G M dE fv broadening energy :=
  compute_cross_section_mkOscillators fconv cte F G M dE fv broadening energy

/-- C1 (counterexample): with one sampled frame, one transition group and
two final states, unit strengths and a kernel double that returns `1`, the
code's aggregation yields `2` (each final state contributes its one-frame
mean `1`), while the claimed division by the number of final states in the
group would yield `1`. -/
theorem C1_counterexample :
    compute_cross_section (fun _ _ _ => 1) 1
        (mkOscillators 1 1 2 (fun _ _ _ => 0) (fun _ _ _ => 1)) 1 0
      ≠ cross_section_claimC1 (fun _ _ _ => 1) 1 1 1 2
          (fun _ _ _ => 0) (fun _ _ _ => 1) 1 0 := by
  rw [compute_cross_section_mkOscillators]
  have h1 : List.range 1 = [0] := rfl
  have h2 : List.range 2 = [0, 1] := rfl
  norm_num [cross_section_frame_mean, cross_section_claimC1, h1, h2]

/-- C3: for every frame data, every initial state and list of final
states, the record produced for each final state carries exactly
`deltaE = es[finalS] - es[initialS]` (as-is, never clamped) and
`fij = (2/3) * deltaE * ((ci . Dx . cj)^2 + (ci . Dy . cj)^2 + (ci . Dz . cj)^2)`,
where `ci`, `cj` are the `initialS`-th and `finalS`-th columns of `coeffs`,
together with the three transition-dipole components themselves. -/
theorem C3_transition_record (n : ℕ) (es : ℕ → ℚ) (coeffs : ℕ → ℕ → ℚ)
    (Dx Dy Dz : ℕ → ℕ → ℚ) (initialS : ℕ) (fs : List ℕ) :
    compute_oscillator_strength n es coeffs [Dx, Dy, Dz] initialS fs
      = fs.map (fun finalS =>
          (⟨initialS, finalS, es finalS - es initialS,
            2 / 3 * (es finalS - es initialS) *
              ((∑ r in Finset.range n, coeffs r initialS *
                  ∑ c in Finset.range n, Dx r c * coeffs c finalS) ^ 2
                + (∑ r in Finset.range n, coeffs r initialS *
                  ∑ c in Finset.range n, Dy r c * coeffs c finalS) ^ 2
                + (∑ r in Finset.range n, coeffs r initialS *
                  ∑ c in Finset.range n, Dz r c * coeffs c finalS) ^ 2),
            [∑ r in Finset.range n, coeffs r initialS *
                ∑ c in Finset.range n, Dx r c * coeffs c finalS,
              ∑ r in Finset.range n, coeffs r initialS *
                ∑ c in Finset.range n, Dy r c * coeffs c finalS,
              ∑ r in Finset.range n, coeffs r initialS *
                ∑ c in Finset.range n, Dz r c * coeffs c finalS]⟩ : OscR)) := by
  unfold compute_oscillator_strength oscillator_strength
  refine List.map_congr_left ?_
  intro finalS _
  simp only [vecDot, matVec, List.map_cons, List.map_nil, List.sum_cons, List.sum_nil,
    add_zero]
  congr 1
  ring

/-- Symmetric-matrix bilinear swap: `u . (M v) = v . (M u)` for symmetric `M`. -/
lemma vecDot_matVec_symm (n : ℕ) (mtx : ℕ → ℕ → ℚ) (hsym : ∀ r c, mtx r c = mtx c r)
    (u v : ℕ → ℚ) : vecDot n u (matVec n mtx v) = vecDot n v (matVec n mtx u) := by
  unfold vecDot matVec
  simp only [Finset.mul_sum]
  rw [Finset.sum_comm]
  refine Finset.sum_congr rfl ?_
  intro c _
  refine Finset.sum_congr rfl ?_
  intro r _
  rw [hsym r c]
  ring

/-- C4 (amended): for the same frame and symmetric dipole matrices (as the
pipeline produces by expanding a packed triangular tensor and conjugating),
`deltaE(i to j) = -deltaE(j to i)`, the three dipole components agree
between the two directions, and `f(i to j) * deltaE(j to i) =
f(j to i) * deltaE(i to j)` — with a plus sign, equivalently
`f(i to j) = -f(j to i)`; the claimed extra minus sign is refuted by
`C4_counterexample`. -/
theorem C4_swap_symmetry (n : ℕ) (es : ℕ → ℚ) (coeffs : ℕ → ℕ → ℚ)
    (Dx Dy Dz : ℕ → ℕ → ℚ) (i j : ℕ)
    (hx : ∀ r c, Dx r c = Dx c r) (hy : ∀ r c, Dy r c = Dy c r)
    (hz : ∀ r c, Dz r c = Dz c r) :
    ((compute_oscillator_strength n es coeffs [Dx, Dy, Dz] i [j]).headI.deltaE
        = -(compute_oscillator_strength n es coeffs [Dx, Dy, Dz] j [i]).headI.deltaE)
    ∧ ((compute_oscillator_strength n es coeffs [Dx, Dy, Dz] i [j]).headI.components
        = (compute_oscillator_strength n es coeffs [Dx, Dy, Dz] j [i]).headI.components)
    ∧ ((compute_oscillator_strength n es coeffs [Dx, Dy, Dz] i [j]).headI.fij
          * (compute_oscillator_strength n es coeffs [Dx, Dy, Dz] j [i]).headI.deltaE
        = (compute_oscillator_strength n es coeffs [Dx, Dy, Dz] j [i]).headI.fij
          * (compute_oscillator_strength n es coeffs [Dx, Dy, Dz] i [j]).headI.deltaE) := by
  have sx := vecDot_matVec_symm n Dx hx (fun r => coeffs r i) (fun r => coeffs r j)
  have sy := vecDot_matVec_symm n Dy hy (fun r => coeffs r i) (fun r => coeffs r j)
  have sz := vecDot_matVec_symm n Dz hz (fun r => coeffs r i) (fun r => coeffs r j)
  simp only [compute_oscillator_strength, oscillator_strength, List.map_cons, List.map_nil,
    List.sum_cons, List.sum_nil, List.headI, add_zero]
  refine ⟨by ring, ?_, ?_⟩
  · rw [sx, sy, sz]
  · rw [sx, sy, sz]
    ring

/-- C4 (witness for the amended theorem): concrete one-basis-function frame
with symmetric dipole matrices, energies `es s = s`. -/
theorem C4_swap_symmetry_witness :
    ((compute_oscillator_strength 1 (fun s => (s : ℚ)) (fun _ _ => 1)
        [fun _ _ => 1, fun _ _ => 0, fun _ _ => 0] 0 [1]).headI.deltaE
      = -(compute_oscillator_strength 1 (fun s => (s : ℚ)) (fun _ _ => 1)
        [fun _ _ => 1, fun _ _ => 0, fun _ _ => 0] 1 [0]).headI.deltaE)
    ∧ ((compute_oscillator_strength 1 (fun s => (s : ℚ)) (fun _ _ => 1)
        [fun _ _ => 1, fun _ _ => 0, fun _ _ => 0] 0 [1]).headI.components
      = (compute_oscillator_strength 1 (fun s => (s : ℚ)) (fun _ _ => 1)
        [fun _ _ => 1, fun _ _ => 0, fun _ _ => 0] 1 [0]).headI.components)
    ∧ ((compute_oscillator_strength 1 (fun s => (s : ℚ)) (fun _ _ => 1)
        [fun _ _ => 1, fun _ _ => 0, fun _ _ => 0] 0 [1]).headI.fij
        * (compute_oscillator_strength 1 (fun s => (s : ℚ)) (fun _ _ => 1)
          [fun _ _ => 1, fun _ _ => 0, fun _ _ => 0] 1 [0]).headI.deltaE
      = (compute_oscillator_strength 1 (fun s => (s : ℚ)) (fun _ _ => 1)
          [fun _ _ => 1, fun _ _ => 0, fun _ _ => 0] 1 [0]).headI.fij
        * (compute_oscillator_strength 1 (fun s => (s : ℚ)) (fun _ _ => 1)
          [fun _ _ => 1, fun _ _ => 0, fun _ _ => 0] 0 [1]).headI.deltaE) :=
  C4_swap_symmetry 1 (fun s => (s : ℚ)) (fun _ _ => 1)
    (fun _ _ => 1) (fun _ _ => 0) (fun _ _ => 0) 0 1
    (fun _ _ => rfl) (fun _ _ => rfl) (fun _ _ => rfl)

/-- C4 (counterexample): at the same concrete frame the claimed identity
`f(i to j) * deltaE(j to i) = -f(j to i) * deltaE(i to j)` fails:
the left side is `-2/3`, the right side is `2/3`. -/
theorem C4_counterexample :
    ¬((compute_oscillator_strength 1 (fun s => (s : ℚ)) (fun _ _ => 1)
          [fun _ _ => 1, fun _ _ => 0, fun _ _ => 0] 0 [1]).headI.fij
        * (compute_oscillator_strength 1 (fun s => (s : ℚ)) (fun _ _ => 1)
          [fun _ _ => 1, fun _ _ => 0, fun _ _ => 0] 1 [0]).headI.deltaE
      = -((compute_oscillator_strength 1 (fun s => (s : ℚ)) (fun _ _ => 1)
          [fun _ _ => 1, fun _ _ => 0, fun _ _ => 0] 1 [0]).headI.fij
        * (compute_oscillator_strength 1 (fun s => (s : ℚ)) (fun _ _ => 1)
          [fun _ _ => 1, fun _ _ => 0, fun _ _ => 0] 0 [1]).headI.deltaE)) := by
  simp only [compute_oscillator_strength, oscillator_strength, List.map_cons, List.map_nil,
    List.sum_cons, List.sum_nil, List.headI, vecDot, matVec, Finset.sum_range_one]
  norm_num

/-- Embedding of `compute_matrix_multipole` of `nanoqm/integrals/multipole_matrices.py`,
as a state transformer over the set of scratch files.  The external
libint call `compute_integrals_multipole` enters as `kernelResult`
(`Except.error` = the call raises), the numpy reshapes to `(4, dim, dim)`
and `(10, dim, dim)` as `reshape4`/`reshape10`.  Returns the result, the
scratch files present afterwards, and how many times the external kernel
was invoked.  The function first writes the scratch geometry file `path`;
the `os.remove(path)` sits after the `if`/`elif` chain and before
`return matrix_multipole`, so it is skipped when the kernel call raises,
but it does run for an unknown multipole kind, where only the subsequent
`return` raises `UnboundLocalError`. -/
def compute_matrix_multipole {α : Type} (kernelResult : Except String α)
    (reshape4 reshape10 : α → α) (path multipole : String)
    (files : List String) : Except String α × List String × ℕ :=
  let files1 := path :: files
  if multipole = "overlap" then
    match kernelResult with
    | Except.error e => (Except.error e, files1, 1)
    | Except.ok m => (Except.ok m, files1.erase path, 1)
  else if multipole = "dipole" then
    match kernelResult with
    | Except.error e => (Except.error e, files1, 1)
    | Except.ok m => (Except.ok (reshape4 m), files1.erase path, 1)
  else if multipole = "quadrupole" then
    match kernelResult with
    | Except.error e => (Except.error e, files1, 1)
    | Except.ok m => (Except.ok (reshape10 m), files1.erase path, 1)
  else
    (Except.error "UnboundLocalError: matrix_multipole referenced before assignment",
      files1.erase path, 0)

/-- State of the HDF5-backed cache: the stored tensors by node path, and a
counter of external integral-kernel invocations. -/
structure CacheState (α : Type) where
  store : String → Option α
  kernelCalls : ℕ

/-- Writing a node (`store_arrays_in_hdf5` / `require_dataset` creating a
fresh dataset). -/
def store_write {α : Type} (store : String → Option α) (key : String) (v : α) :
    String → Option α :=
  fun k => if k = key then some v else store k

/-- Embedding of `get_multipole_matrix` of `nanoqm/integrals/multipole_matrices.py`:
on a hit return the stored tensor; on a miss run
`compute_matrix_multipole` and store the result.  `store_arrays_in_hdf5`
is called with its default `dtype=np.float32`, so the stored copy is the
computed tensor after the float32 dtype conversion `cast32`, while the
value returned by the first (missing) call is the unconverted fresh
tensor. -/
def get_multipole_matrix {α : Type} (kernelResult : Except String α)
    (reshape4 reshape10 cast32 : α → α) (key path multipole : String)
    (st : CacheState α) (files : List String) :
    Except String α × CacheState α × List String :=
  match st.store key with
  | some v => (Except.ok v, st, files)
  | none =>
    let r := compute_matrix_multipole kernelResult reshape4 reshape10 path multipole files
    match r.1 with
    | Except.error e => (Except.error e, ⟨st.store, st.kernelCalls + r.2.2⟩, r.2.1)
    | Except.ok m =>
      (Except.ok m, ⟨store_write st.store key (cast32 m), st.kernelCalls + r.2.2⟩, r.2.1)

/-- Fuel-driven binary exponent: for positive rational `q` and enough fuel,
the unique `e` with `2 ^ e ≤ q < 2 ^ (e + 1)`. -/
def exp2Floor (fuel : ℕ) (q : ℚ) : ℤ :=
  if h : fuel = 0 then 0
  else if q < 1 then exp2Floor (fuel - 1) (q * 2) - 1
  else if q < 2 then 0
  else exp2Floor (fuel - 1) (q / 2) + 1
termination_by fuel
decreasing_by all_goals omega

/-- Round-to-nearest onto a 24-bit significand: the value an IEEE-754
binary32 (`np.float32`) stores for a normal-range rational.  Ties round
up; overflow and subnormal inputs are outside the values used here. -/
def roundF32 (x : ℚ) : ℚ :=
  if x = 0 then 0
  else
    let ax := |x|
    let s : ℚ := if x < 0 then -1 else 1
    let e : ℤ := exp2Floor 1100 ax - 23
    s * ((round (ax / (2 : ℚ) ^ e) : ℤ) : ℚ) * (2 : ℚ) ^ e

/-- numpy `linspace(start, stop, num)` with the default endpoint
inclusion: `num` samples, the `i`-th at `start + (stop-start) * i/(num-1)`. -/
def np_linspace (start halt : ℚ) (num : ℕ) : List ℚ :=
  if num = 0 then []
  else if num = 1 then [start]
  else (List.range num).map (fun (i : ℕ) =>
    start + (halt - start) * (i : ℚ) / ((num : ℚ) - 1))

/-- Python `int(q)` on a real value: truncation toward zero. -/
def pyInt (q : ℚ) : ℤ := if 0 ≤ q then ⌊q⌋ else -⌊-q⌋

/-- Rational value of the source constant `h2ev`
(`physical_constants` Hartree energy in eV, `27.211386245988`). -/
def h2evConst : ℚ := 27211386245988 / 1000000000000

/-- The grid construction of `create_promised_cross_section` in
`workflow_AbsortionSpectrum.py`: convert broadening and both bounds from
eV to hartrees, set `npoints = int((final - initial)/broad_au)` and build
`np.linspace(initial, final, npoints)`.  numpy raises `ValueError` for a
negative sample count (`E_max < E_min`), while `npoints = 0` silently
yields an empty grid. -/
def create_energy_grid (h2ev broadening e_min e_max : ℚ) : Except String (List ℚ) :=
  let broad_au := broadening / h2ev
  let initial_energy := e_min / h2ev
  let final_energy := e_max / h2ev
  let npoints : ℤ := pyInt ((final_energy - initial_energy) / broad_au)
  if npoints < 0 then
    Except.error "ValueError: Number of samples must be non-negative"
  else Except.ok (np_linspace initial_energy final_energy npoints.toNat)

/-- Per-frame input of the sweep: the MO energies and coefficients of the
frame and its spherical dipole matrices (the product of the integral
cache, basis transform and center-of-mass stages). -/
structure MOFrame where
  n : ℕ
  es : ℕ → ℚ
  coeffs : ℕ → ℕ → ℚ
  mtx : List (ℕ → ℕ → ℚ)

/-- Embedding of `calcOscillatorStrenghts` of `workflow_AbsortionSpectrum.py`: one list
of records per `(initial state, final-state set)` pair of
`zip(initial_states, final_states)`. -/
def calcOscillatorStrenghts (fr : MOFrame) (initial_states : List ℕ)
    (final_states : List (List ℕ)) : List (List OscR) :=
  (initial_states.zip final_states).map (fun p =>
    compute_oscillator_strength fr.n fr.es fr.coeffs fr.mtx p.1 p.2)

/-- The dataflow of `workflow_oscillator_strength` as executed by the
noodles `run`: the scheduled cross-section grid consumes the gathered
per-frame oscillator promises, so all per-frame oscillator computations
are performed, and only then does `compute_cross_section_grid` run —
including its convolution-name dictionary lookup. -/
def run_workflow (gaussian lorentzian : ℚ → ℚ → ℚ → ℚ) (cte : ℚ) (frames : List MOFrame)
    (initial_states : List ℕ) (final_states : List (List ℕ)) (convolution : String)
    (energies : List ℚ) (broadening : ℚ) :
    List (List (List OscR)) × Except String (List ℚ) :=
  let oscillators := frames.map (fun fr =>
    calcOscillatorStrenghts fr initial_states final_states)
  (oscillators, compute_cross_section_grid gaussian lorentzian cte oscillators convolution
    energies broadening)

/-- Embedding of `write_oscillator` of `workflow_AbsortionSpectrum.py`: append one
formatted row to the file (open mode `'a'`).  The float formatting of the
row is the parameter `format_row`. -/
def write_oscillator (format_row : OscR → String) (file : List String) (osc : OscR) :
    List String :=
  file ++ [format_row osc]

/-- Embedding of `write_information` of `workflow_AbsortionSpectrum.py`: for each
transition block `xs` of `chain(*data)` the file is reopened with mode
`'w'` — truncating whatever was written before — the header is written,
and then the rows of `xs` are appended. -/
def write_information (format_row : OscR → String) (header : String)
    (data : List (List (List OscR))) (file0 : List String) : List String :=
  data.flatten.foldl (fun _file xs => xs.foldl (write_oscillator format_row) [header]) file0

/-- C2 (amended): starting from a state where the key is absent, calling
the cache twice with the same key and multipole kind invokes the external
kernel exactly once; the first call returns the freshly computed tensor
`m` and the second call returns its stored copy `cast32 m` — the tensor
after the float32 dtype conversion of `store_arrays_in_hdf5` — which is
bit-identical to `m` exactly when that conversion leaves `m` unchanged.
The second call also leaves the cache state and scratch files untouched. -/
theorem C2_cache_single_invocation {α : Type} (kernelv : α)
    (reshape4 reshape10 cast32 : α → α) (key path multipole : String)
    (st : CacheState α) (files : List String)
    (hmiss : st.store key = none)
    (hkind : multipole = "overlap" ∨ multipole = "dipole" ∨ multipole = "quadrupole") :
    ∃ m : α,
      (get_multipole_matrix (Except.ok kernelv) reshape4 reshape10 cast32 key path
          multipole st files).1 = Except.ok m
      ∧ (get_multipole_matrix (Except.ok kernelv) reshape4 reshape10 cast32 key path
          multipole
          (get_multipole_matrix (Except.ok kernelv) reshape4 reshape10 cast32 key path
            multipole st files).2.1
          (get_multipole_matrix (Except.ok kernelv) reshape4 reshape10 cast32 key path
            multipole st files).2.2).1 = Except.ok (cast32 m)
      ∧ (get_multipole_matrix (Except.ok kernelv) reshape4 reshape10 cast32 key path
          multipole st files).2.1.kernelCalls = st.kernelCalls + 1
      ∧ (get_multipole_matrix (Except.ok kernelv) reshape4 reshape10 cast32 key path
          multipole
          (get_multipole_matrix (Except.ok kernelv) reshape4 reshape10 cast32 key path
            multipole st files).2.1
          (get_multipole_matrix (Except.ok kernelv) reshape4 reshape10 cast32 key path
            multipole st files).2.2).2.1
        = (get_multipole_matrix (Except.ok kernelv) reshape4 reshape10 cast32 key path
            multipole st files).2.1
      ∧ (get_multipole_matrix (Except.ok kernelv) reshape4 reshape10 cast32 key path
          multipole
          (get_multipole_matrix (Except.ok kernelv) reshape4 reshape10 cast32 key path
            multipole st files).2.1
          (get_multipole_matrix (Except.ok kernelv) reshape4 reshape10 cast32 key path
            multipole st files).2.2).2.2
        = (get_multipole_matrix (Except.ok kernelv) reshape4 reshape10 cast32 key path
            multipole st files).2.2 := by
  rcases hkind with h | h | h <;> subst h
  · exact ⟨kernelv, by
      simp [get_multipole_matrix, compute_matrix_multipole, store_write, hmiss], by
      simp [get_multipole_matrix, compute_matrix_multipole, store_write, hmiss], by
      simp [get_multipole_matrix, compute_matrix_multipole, store_write, hmiss], by
      simp [get_multipole_matrix, compute_matrix_multipole, store_write, hmiss], by
      simp [get_multipole_matrix, compute_matrix_multipole, store_write, hmiss]⟩
  · exact ⟨reshape4 kernelv, by
      simp [get_multipole_matrix, compute_matrix_multipole, store_write, hmiss], by
      simp [get_multipole_matrix, compute_matrix_multipole, store_write, hmiss], by
      simp [get_multipole_matrix, compute_matrix_multipole, store_write, hmiss], by
      simp [get_multipole_matrix, compute_matrix_multipole, store_write, hmiss], by
      simp [get_multipole_matrix, compute_matrix_multipole, store_write, hmiss]⟩
  · exact ⟨reshape10 kernelv, by
      simp [get_multipole_matrix, compute_matrix_multipole, store_write, hmiss], by
      simp [get_multipole_matrix, compute_matrix_multipole, store_write, hmiss], by
      simp [get_multipole_matrix, compute_matrix_multipole, store_write, hmiss], by
      simp [get_multipole_matrix, compute_matrix_multipole, store_write, hmiss], by
      simp [get_multipole_matrix, compute_matrix_multipole, store_write, hmiss]⟩

/-- C2 (witness): concrete cold cache over rational tensors with identity
reshape and an exact store conversion. -/
theorem C2_cache_single_invocation_witness :
    ∃ m : ℚ,
      (get_multipole_matrix (Except.ok (1 : ℚ)) id id id "K" "p"
          "overlap" ⟨fun _ => none, 0⟩ []).1 = Except.ok m
      ∧ (get_multipole_matrix (Except.ok (1 : ℚ)) id id id "K" "p"
          "overlap"
          (get_multipole_matrix (Except.ok (1 : ℚ)) id id id "K" "p"
            "overlap" ⟨fun _ => none, 0⟩ []).2.1
          (get_multipole_matrix (Except.ok (1 : ℚ)) id id id "K" "p"
            "overlap" ⟨fun _ => none, 0⟩ []).2.2).1 = Except.ok (id m)
      ∧ (get_multipole_matrix (Except.ok (1 : ℚ)) id id id "K" "p"
          "overlap" ⟨fun _ => none, 0⟩ []).2.1.kernelCalls
        = (⟨fun _ => none, 0⟩ : CacheState ℚ).kernelCalls + 1
      ∧ (get_multipole_matrix (Except.ok (1 : ℚ)) id id id "K" "p"
          "overlap"
          (get_multipole_matrix (Except.ok (1 : ℚ)) id id id "K" "p"
            "overlap" ⟨fun _ => none, 0⟩ []).2.1
          (get_multipole_matrix (Except.ok (1 : ℚ)) id id id "K" "p"
            "overlap" ⟨fun _ => none, 0⟩ []).2.2).2.1
        = (get_multipole_matrix (Except.ok (1 : ℚ)) id id id "K" "p"
            "overlap" ⟨fun _ => none, 0⟩ []).2.1
      ∧ (get_multipole_matrix (Except.ok (1 : ℚ)) id id id "K" "p"
          "overlap"
          (get_multipole_matrix (Except.ok (1 : ℚ)) id id id "K" "p"
            "overlap" ⟨fun _ => none, 0⟩ []).2.1
          (get_multipole_matrix (Except.ok (1 : ℚ)) id id id "K" "p"
            "overlap" ⟨fun _ => none, 0⟩ []).2.2).2.2
        = (get_multipole_matrix (Except.ok (1 : ℚ)) id id id "K" "p"
            "overlap" ⟨fun _ => none, 0⟩ []).2.2 :=
  C2_cache_single_invocation (1 : ℚ) id id id "K" "p" "overlap"
    ⟨fun _ => none, 0⟩ [] rfl (Or.inl rfl)

/-- C2 (counterexample): with the kernel producing the tensor value
`1/10` and the store performing the binary32 dtype conversion, the first
call returns `1/10` while the second call returns the stored
`roundF32 (1/10) = 13421773/2^27 ≠ 1/10`: the two returned tensors are
not bit-identical. -/
theorem C2_counterexample :
    (get_multipole_matrix (Except.ok ((1 : ℚ)/10)) id id roundF32 "K" "p"
        "overlap" ⟨fun _ => none, 0⟩ []).1
      ≠ (get_multipole_matrix (Except.ok ((1 : ℚ)/10)) id id roundF32 "K" "p"
          "overlap"
          (get_multipole_matrix (Except.ok ((1 : ℚ)/10)) id id roundF32 "K" "p"
            "overlap" ⟨fun _ => none, 0⟩ []).2.1
          (get_multipole_matrix (Except.ok ((1 : ℚ)/10)) id id roundF32 "K" "p"
            "overlap" ⟨fun _ => none, 0⟩ []).2.2).1 := by
  have h32 : roundF32 ((1 : ℚ)/10) ≠ (1 : ℚ)/10 := by
    have he : exp2Floor 1100 ((1 : ℚ)/10) = -4 := by
      rw [exp2Floor]; norm_num
      rw [exp2Floor]; norm_num
      rw [exp2Floor]; norm_num
      rw [exp2Floor]; norm_num
      rw [exp2Floor]; norm_num
    simp only [roundF32]
    norm_num [he, round_eq, abs_of_pos, Int.floor_eq_iff]
  simp only [get_multipole_matrix, compute_matrix_multipole]
  simp [store_write]
  intro hcon
  apply h32
  rw [one_div]
  exact hcon.symm

/-- C5 (amended): for the known multipole kinds the scratch geometry file
is deleted after a *successful* kernel invocation; when the kernel call
raises, the exception propagates before `os.remove` is reached and the
scratch file is left behind. -/
theorem C5_scratch_file_cleanup {α : Type} (kernelResult : Except String α)
    (reshape4 reshape10 : α → α) (path : String) (multipole : String)
    (files : List String)
    (hkind : multipole = "overlap" ∨ multipole = "dipole" ∨ multipole = "quadrupole")
    (hnew : path ∉ files) :
    ((∃ m, kernelResult = Except.ok m) →
      path ∉ (compute_matrix_multipole kernelResult reshape4 reshape10 path multipole
        files).2.1)
    ∧ (∀ e, kernelResult = Except.error e →
        (compute_matrix_multipole kernelResult reshape4 reshape10 path multipole files).1
          = Except.error e
        ∧ path ∈ (compute_matrix_multipole kernelResult reshape4 reshape10 path multipole
            files).2.1) := by
  rcases hkind with h | h | h <;> subst h <;>
    cases kernelResult <;>
      simp [compute_matrix_multipole, List.erase_cons_head, hnew]

/-- C5 (witness): a successful dipole computation removes the scratch
file. -/
theorem C5_scratch_file_cleanup_witness :
    ((∃ m, (Except.ok (1 : ℚ) : Except String ℚ) = Except.ok m) →
      "scratch.xyz" ∉ (compute_matrix_multipole (Except.ok (1 : ℚ)) id id "scratch.xyz"
        "dipole" []).2.1)
    ∧ (∀ e, (Except.ok (1 : ℚ) : Except String ℚ) = Except.error e →
        (compute_matrix_multipole (Except.ok (1 : ℚ)) id id "scratch.xyz" "dipole" []).1
          = Except.error e
        ∧ "scratch.xyz" ∈ (compute_matrix_multipole (Except.ok (1 : ℚ)) id id "scratch.xyz"
            "dipole" []).2.1) :=
  C5_scratch_file_cleanup (Except.ok (1 : ℚ)) id id "scratch.xyz" "dipole" []
    (Or.inr (Or.inl rfl)) (by simp)

/-- C5 (counterexample): when the kernel invocation raises, the error
propagates and the scratch geometry file is still present afterwards —
the deletion is *not* reached on the error path. -/
theorem C5_counterexample :
    (compute_matrix_multipole (Except.error "kernel failure") (id : ℚ → ℚ) id
        "scratch.xyz" "overlap" []).1 = Except.error "kernel failure"
    ∧ "scratch.xyz" ∈ (compute_matrix_multipole (Except.error "kernel failure") (id : ℚ → ℚ)
        id "scratch.xyz" "overlap" []).2.1 := by
  constructor <;> simp [compute_matrix_multipole]

/-- C10 (amended): for an unknown multipole kind the computation writes
the scratch file, performs no kernel invocation, *deletes* the scratch
file (the `os.remove` line precedes the failing `return`), fails with an
unbound-variable error, and stores nothing under the key: the cache state
is unchanged. -/
theorem C10_unknown_multipole {α : Type} (kernelResult : Except String α)
    (reshape4 reshape10 cast32 : α → α) (key path multipole : String)
    (st : CacheState α) (files : List String)
    (h1 : multipole ≠ "overlap") (h2 : multipole ≠ "dipole")
    (h3 : multipole ≠ "quadrupole")
    (hmiss : st.store key = none) (hnew : path ∉ files) :
    (get_multipole_matrix kernelResult reshape4 reshape10 cast32 key path multipole st
        files).1
      = Except.error "UnboundLocalError: matrix_multipole referenced before assignment"
    ∧ (get_multipole_matrix kernelResult reshape4 reshape10 cast32 key path multipole st
        files).2.1.store = st.store
    ∧ (get_multipole_matrix kernelResult reshape4 reshape10 cast32 key path multipole st
        files).2.1.kernelCalls = st.kernelCalls
    ∧ path ∉ (get_multipole_matrix kernelResult reshape4 reshape10 cast32 key path multipole
        st files).2.2 := by
  refine ⟨?_, ?_, ?_, ?_⟩ <;>
    simp [get_multipole_matrix, compute_matrix_multipole, hmiss, h1, h2, h3,
      List.erase_cons_head, hnew]

/-- C10 (witness): a concrete unknown kind `octupole` on a cold cache. -/
theorem C10_unknown_multipole_witness :
    (get_multipole_matrix (Except.ok (1 : ℚ)) id id id "K" "scratch.xyz" "octupole"
        ⟨fun _ => none, 0⟩ []).1
      = Except.error "UnboundLocalError: matrix_multipole referenced before assignment"
    ∧ (get_multipole_matrix (Except.ok (1 : ℚ)) id id id "K" "scratch.xyz" "octupole"
        ⟨fun _ => none, 0⟩ []).2.1.store = (⟨fun _ => none, 0⟩ : CacheState ℚ).store
    ∧ (get_multipole_matrix (Except.ok (1 : ℚ)) id id id "K" "scratch.xyz" "octupole"
        ⟨fun _ => none, 0⟩ []).2.1.kernelCalls
      = (⟨fun _ => none, 0⟩ : CacheState ℚ).kernelCalls
    ∧ "scratch.xyz" ∉ (get_multipole_matrix (Except.ok (1 : ℚ)) id id id "K" "scratch.xyz"
        "octupole" ⟨fun _ => none, 0⟩ []).2.2 :=
  C10_unknown_multipole (Except.ok (1 : ℚ)) id id id "K" "scratch.xyz" "octupole"
    ⟨fun _ => none, 0⟩ [] (by decide) (by decide) (by decide) rfl (by simp)

/-- C10 (counterexample): for the unknown kind the scratch file is *not*
left behind — after the failing call the file set is empty again, because
`os.remove(path)` executes before the `return` statement raises. -/
theorem C10_counterexample :
    (compute_matrix_multipole (Except.ok (1 : ℚ)) id id "scratch.xyz" "octupole" []).2.1
      = []
    ∧ (compute_matrix_multipole (Except.ok (1 : ℚ)) id id "scratch.xyz" "octupole" []).1
      = Except.error "UnboundLocalError: matrix_multipole referenced before assignment" := by
  constructor <;> simp [compute_matrix_multipole]

lemma np_linspace_length (a b : ℚ) (num : ℕ) : (np_linspace a b num).length = num := by
  unfold np_linspace
  by_cases h0 : num = 0
  · simp [h0]
  · by_cases h1 : num = 1
    · simp [h0, h1]
    · simp only [h0, h1, if_false]
      rw [List.length_map, List.length_range]

lemma np_linspace_getD (a b : ℚ) (num : ℕ) (i : ℕ) (hi : i < num) :
    (np_linspace a b num).getD i 0 = a + (b - a) * i / ((num : ℚ) - 1) := by
  unfold np_linspace
  by_cases h0 : num = 0
  · omega
  · by_cases h1 : num = 1
    · subst h1
      have hi0 : i = 0 := by omega
      subst hi0
      simp
    · simp only [h0, h1, if_false]
      exact List_getD_map_range _ hi 0

/-- C6 (code evaluation): for `energy_range = (1, 1)` eV (equal bounds)
and `broadening = 0.1` eV, the grid construction raises no error and
returns the empty grid: `npoints = int(0) = 0` and `np.linspace(x, x, 0)`
is empty.  The fail-fast configuration error the claim requires does not
happen. -/
theorem C6_equal_bounds_silent_empty_grid :
    create_energy_grid h2evConst (1/10) 1 1 = Except.ok [] := by
  unfold create_energy_grid pyInt np_linspace
  norm_num

/-- C8: for `E_max > E_min`, positive broadening and any positive unit
conversion constant `h2ev`, the grid construction succeeds; the number of
grid points is `floor((E_max - E_min)/broadeningWidth)` computed from the
original eV quantities — the common conversion of both bounds and the
width to atomic units cancels exactly — and the points are linearly
spaced over the converted interval `[E_min/h2ev, E_max/h2ev]`, containing
both endpoints whenever the grid has at least two points. -/
theorem C8_grid_construction (h2ev broadening e_min e_max : ℚ)
    (hh : 0 < h2ev) (hb : 0 < broadening) (he : e_min < e_max) :
    ∃ grid : List ℚ,
      create_energy_grid h2ev broadening e_min e_max = Except.ok grid
      ∧ grid.length = (⌊(e_max - e_min) / broadening⌋).toNat
      ∧ (∀ i : ℕ, i < grid.length →
          grid.getD i 0 = e_min / h2ev
            + ((e_max - e_min) / h2ev) * i / ((grid.length : ℚ) - 1))
      ∧ (2 ≤ grid.length →
          grid.getD 0 0 = e_min / h2ev
          ∧ grid.getD (grid.length - 1) 0 = e_max / h2ev) := by
  have hhne : h2ev ≠ 0 := ne_of_gt hh
  have hbne : broadening ≠ 0 := ne_of_gt hb
  have hcancel : (e_max / h2ev - e_min / h2ev) / (broadening / h2ev)
      = (e_max - e_min) / broadening := by
    field_simp
  have hposr : 0 ≤ (e_max - e_min) / broadening :=
    le_of_lt (div_pos (sub_pos.mpr he) hb)
  have hfloor : ¬(⌊(e_max - e_min) / broadening⌋ < 0) :=
    not_lt.mpr (Int.floor_nonneg.mpr hposr)
  have hba : e_max / h2ev - e_min / h2ev = (e_max - e_min) / h2ev := by
    field_simp
  refine ⟨np_linspace (e_min / h2ev) (e_max / h2ev)
      (⌊(e_max - e_min) / broadening⌋).toNat, ?_, np_linspace_length _ _ _, ?_, ?_⟩
  · simp only [create_energy_grid, pyInt]
    rw [hcancel, if_pos hposr, if_neg hfloor]
  · intro i hi
    rw [np_linspace_length] at hi ⊢
    rw [np_linspace_getD _ _ _ i hi, hba]
  · intro h2
    rw [np_linspace_length] at h2 ⊢
    set n : ℕ := (⌊(e_max - e_min) / broadening⌋).toNat with hn
    have hne1 : ((n : ℚ) - 1) ≠ 0 := by
      have hc2 : (2 : ℚ) ≤ (n : ℚ) := by exact_mod_cast h2
      intro hcon
      rw [sub_eq_zero] at hcon
      rw [hcon] at hc2
      norm_num at hc2
    constructor
    · rw [np_linspace_getD _ _ _ 0 (by omega)]
      norm_num
    · rw [np_linspace_getD _ _ _ (n - 1) (by omega)]
      have hcast1 : ((n - 1 : ℕ) : ℚ) = (n : ℚ) - 1 := by
        have : (1 : ℕ) ≤ n := by omega
        push_cast [this]
        ring
      rw [hcast1, mul_div_assoc, div_self hne1, mul_one, hba, div_add_div_same]
      congr 1
      ring

/-- C8 (witness): the spec's own example, `energyRange = (0, 5)` eV with
`broadeningWidth = 0.1` eV under the source constant `h2ev`:
`floor(5 / 0.1) = 50` grid points. -/
theorem C8_grid_construction_witness :
    ∃ grid : List ℚ,
      create_energy_grid h2evConst (1/10) 0 5 = Except.ok grid
      ∧ grid.length = (⌊((5 : ℚ) - 0) / (1/10)⌋).toNat
      ∧ (∀ i : ℕ, i < grid.length →
          grid.getD i 0 = 0 / h2evConst
            + (((5 : ℚ) - 0) / h2evConst) * i / ((grid.length : ℚ) - 1))
      ∧ (2 ≤ grid.length →
          grid.getD 0 0 = 0 / h2evConst
          ∧ grid.getD (grid.length - 1) 0 = 5 / h2evConst) :=
  C8_grid_construction h2evConst (1/10) 0 5
    (by norm_num [h2evConst]) (by norm_num) (by norm_num)

/-- C7 (amended): an unknown convolution name makes the sweep fail with a
lookup (`KeyError`) failure, but only inside the scheduled
`compute_cross_section_grid` step: every per-frame oscillator computation
is still performed — the first component of the run is the fully computed
per-frame data — and the failure is not raised before them. -/
theorem C7_unknown_kernel_fails_late (gaussian lorentzian : ℚ → ℚ → ℚ → ℚ) (cte : ℚ)
    (frames : List MOFrame) (initial_states : List ℕ) (final_states : List (List ℕ))
    (convolution : String) (energies : List ℚ) (broadening : ℚ)
    (h1 : convolution ≠ "gaussian") (h2 : convolution ≠ "lorentzian") :
    (run_workflow gaussian lorentzian cte frames initial_states final_states convolution
        energies broadening).2 = Except.error ("KeyError: " ++ convolution)
    ∧ (run_workflow gaussian lorentzian cte frames initial_states final_states convolution
        energies broadening).1
      = frames.map (fun fr => calcOscillatorStrenghts fr initial_states final_states) := by
  constructor <;>
    simp [run_workflow, compute_cross_section_grid, convolution_functions, h1, h2]

/-- C7 (witness): a one-frame sweep with the unknown kernel name `foo`. -/
theorem C7_unknown_kernel_fails_late_witness :
    (run_workflow (fun _ _ _ => 0) (fun _ _ _ => 0) 1 [⟨1, fun _ => 0, fun _ _ => 0, []⟩]
        [0] [[1]] "foo" [0] 1).2 = Except.error ("KeyError: " ++ "foo")
    ∧ (run_workflow (fun _ _ _ => 0) (fun _ _ _ => 0) 1 [⟨1, fun _ => 0, fun _ _ => 0, []⟩]
        [0] [[1]] "foo" [0] 1).1
      = [⟨1, fun _ => 0, fun _ _ => 0, []⟩].map (fun fr => calcOscillatorStrenghts fr
          [0] [[1]]) :=
  C7_unknown_kernel_fails_late (fun _ _ _ => 0) (fun _ _ _ => 0) 1
    [⟨1, fun _ => 0, fun _ _ => 0, []⟩] [0] [[1]] "foo" [0] 1
    (by decide) (by decide)

/-- C7 (counterexample): with the unknown kernel name `foo` the run still
carries the fully computed oscillator record of its one frame — one
transition record `0 to 1` was produced before the failure — refuting the
claim that the sweep fails before any per-frame computation. -/
theorem C7_counterexample :
    (run_workflow (fun _ _ _ => 0) (fun _ _ _ => 0) 1 [⟨1, fun _ => 0, fun _ _ => 0, []⟩]
        [0] [[1]] "foo" [0] 1).1 = [[[⟨0, 1, 0, 0, []⟩]]]
    ∧ (run_workflow (fun _ _ _ => 0) (fun _ _ _ => 0) 1 [⟨1, fun _ => 0, fun _ _ => 0, []⟩]
        [0] [[1]] "foo" [0] 1).2 = Except.error "KeyError: foo" := by
  constructor
  · simp [run_workflow, calcOscillatorStrenghts, compute_oscillator_strength,
      oscillator_strength, List.zip]
  · simp [run_workflow, compute_cross_section_grid, convolution_functions]

/-- C9 (code evaluation): `write_information` reopens the output file in
truncating `'w'` mode for every transition block, so with two
initial-state blocks the final file holds only the header and the second
block's row — the first block's transition is missing, although it was
computed. -/
theorem C9_last_block_only :
    write_information (fun r => if r.initialS = 1 then "rowA" else "rowB") "header"
        [[[⟨1, 3, 0, 0, []⟩], [⟨2, 4, 0, 0, []⟩]]] []
      = ["header", "rowB"]
    ∧ "rowA" ∉ write_information (fun r => if r.initialS = 1 then "rowA" else "rowB")
        "header" [[[⟨1, 3, 0, 0, []⟩], [⟨2, 4, 0, 0, []⟩]]] [] := by
  constructor <;> simp [write_information, write_oscillator]

end NanoQMFlows
